import Mathlib

/-!
Verification development for the hybrid PDF retrieval engine
(`chat_pdfs.py`).  The Python source is shallowly embedded: pure helpers
become Lean functions, the chunking `while` loop becomes a fuel-indexed
recursion returning `Option` (so non-termination is observable as `none`
for every fuel), Python floats are modelled by exact rationals, and the
vector store plus embedding model are opaque parameters.  Python's
`str.strip` / `str.lower` / `str.split` are modelled at ASCII fidelity,
which covers every input used in the theorems below.
-/

namespace ChatPdfs

/-! ## ASCII string primitives (models of Python str methods) -/

/-- Model of Python `str.lower` on one character (ASCII range). -/
def asciiLower (c : Char) : Char :=
  if 65 ≤ c.toNat ∧ c.toNat ≤ 90 then Char.ofNat (c.toNat + 32) else c

/-- Model of Python `str.upper` on one character (ASCII range). -/
def asciiUpper (c : Char) : Char :=
  if 97 ≤ c.toNat ∧ c.toNat ≤ 122 then Char.ofNat (c.toNat - 32) else c

/-- ASCII uppercase test, model of Python `c.isupper()`. -/
def asciiIsUpper (c : Char) : Bool := 65 ≤ c.toNat && c.toNat ≤ 90

/-- ASCII lowercase test. -/
def asciiIsLower (c : Char) : Bool := 97 ≤ c.toNat && c.toNat ≤ 122

/-- ASCII digit test, model of Python `c.isdigit()`. -/
def asciiIsDigit (c : Char) : Bool := 48 ≤ c.toNat && c.toNat ≤ 57

/-- ASCII alphabetic test. -/
def asciiIsAlpha (c : Char) : Bool := asciiIsUpper c || asciiIsLower c

/-- Model of Python `str.lower`. -/
def pyLower (s : String) : String := ⟨s.data.map asciiLower⟩

/-- Model of Python `str.upper`. -/
def pyUpper (s : String) : String := ⟨s.data.map asciiUpper⟩

/-- Model of Python `str.capitalize`: first character uppercased, rest
lowercased. -/
def pyCapitalize (s : String) : String :=
  match s.data with
  | [] => ""
  | c :: tl => ⟨asciiUpper c :: tl.map asciiLower⟩

/-- Worker for `pyTitle`: the Boolean records whether the previous
character was alphabetic. -/
def pyTitleAux : Bool → List Char → List Char
  | _, [] => []
  | prevAlpha, c :: tl =>
    (if asciiIsAlpha c then (if prevAlpha then asciiLower c else asciiUpper c) else c)
      :: pyTitleAux (asciiIsAlpha c) tl

/-- Model of Python `str.title`: each alphabetic run starts uppercase,
continues lowercase. -/
def pyTitle (s : String) : String := ⟨pyTitleAux false s.data⟩

/-- Worker for `pySplitWs`: `cur` holds the current token reversed. -/
def pySplitWsAux : List Char → List Char → List String
  | [], cur => if cur.isEmpty then [] else [⟨cur.reverse⟩]
  | c :: tl, cur =>
    if c.isWhitespace then
      (if cur.isEmpty then [] else [⟨cur.reverse⟩]) ++ pySplitWsAux tl []
    else pySplitWsAux tl (c :: cur)

/-- Model of Python `str.split()` (no argument): the maximal
whitespace-free runs, in order (empty pieces dropped). -/
def pySplitWs (s : String) : List String := pySplitWsAux s.data []

/-- `dropWhile` from both ends of a character list. -/
def stripWhile (p : Char → Bool) (l : List Char) : List Char :=
  ((l.dropWhile p).reverse.dropWhile p).reverse

/-- Model of Python `str.strip()` (whitespace strip). -/
def pyStrip (l : List Char) : List Char := stripWhile Char.isWhitespace l

/-- The punctuation set stripped in `extraer_keywords`
(`'¿?.,;:()[]\x7b\x7d"'-'`). -/
def PUNCT : List Char :=
  [ '¿', '?', '.', ',', ';', ':', '(', ')', '[', ']', '\x7b', '\x7d', '"', '\'', '-']

/-- Model of Python `str.strip('¿?.,;:()[]\x7b\x7d"'-')`. -/
def stripPunct (s : String) : String := ⟨stripWhile (fun c => PUNCT.contains c) s.data⟩

/-! ## Configuration constants (section 2 of the source) -/

def CHUNK_SIZE : Int := 800
def CHUNK_OVERLAP : Int := 200
def MIN_CHUNK_LENGTH : Nat := 100
def N_RESULTADOS_SEMANTICOS : Nat := 25
def N_RESULTADOS_KEYWORD : Nat := 20
def TOP_K_FINAL : Nat := 12
def EXPANDIR_CONTEXTO : Bool := true
def USAR_BUSQUEDA_HIBRIDA : Bool := true

/-- `UMBRAL_RELEVANCIA = 0.02`, modelled exactly as a rational. -/
def UMBRAL_RELEVANCIA : ℚ := 2 / 100

/-! ## Fragment metadata and the id format

Chroma metadata dictionaries carry `source`, `page`, optionally `chunk`
and optionally `total_chunks_in_page`; the two optional fields are read
with `metadata.get('chunk', 0)` / membership tests, hence `Option`. -/

structure Meta where
  source : String
  page : Nat
  chunk : Option Nat
  total_chunks_in_page : Option Nat
deriving DecidableEq, Repr

/-- Fragment id as written at indexing time
(`f"{archivo}_pag{i}_chunk{chunk_idx}"`, line 864). -/
def id_fragmento_indexar (archivo : String) (i chunk_idx : Nat) : String :=
  archivo ++ "_pag" ++ toString i ++ "_chunk" ++ toString chunk_idx

/-- Fragment id as recomputed when collecting semantic search results
(line 634). -/
def id_fragmento_semantica (m : Meta) : String :=
  m.source ++ "_pag" ++ toString m.page ++ "_chunk" ++ toString (m.chunk.getD 0)

/-- Fragment id as recomputed when collecting keyword search results
(line 495). -/
def id_fragmento_keywords (m : Meta) : String :=
  m.source ++ "_pag" ++ toString m.page ++ "_chunk" ++ toString (m.chunk.getD 0)

/-- Fragment id as written by the context expander for a neighbour chunk
index `c` (lines 349 and 355). -/
def id_fragmento_expansion (archivo : String) (pagina c : Nat) : String :=
  archivo ++ "_pag" ++ toString pagina ++ "_chunk" ++ toString c

/-- Fragment id as recomputed for fetched neighbour fragments
(line 1101). -/
def id_fragmento_vecino (m : Meta) : String :=
  m.source ++ "_pag" ++ toString m.page ++ "_chunk" ++ toString (m.chunk.getD 0)

/-! ## Chunker (`dividir_en_chunks`, lines 284-321)

The `while inicio < texto_len` loop is embedded with explicit fuel; a
`none` result means the fuel ran out, and `none` for every fuel means the
Python loop does not terminate.  `inicio` is an `Int` because Python's
`inicio = fin - overlap` can go negative when `overlap` exceeds `fin`. -/

/-- Python slice-index normalisation: negative indices count from the
end, and the result is clamped to `[0, len]`. -/
def pySliceNorm (len : Nat) (a : Int) : Nat :=
  if a < 0 then (max 0 ((len : Int) + a)).toNat else (min a (len : Int)).toNat

/-- Model of the Python slice `l[a:b]`. -/
def pySlice (l : List Char) (a b : Int) : List Char :=
  (l.take (pySliceNorm l.length b)).drop (pySliceNorm l.length a)

/-- One-loop-iteration-per-fuel-unit embedding of the `while` loop of
`dividir_en_chunks`.  The accumulator holds the chunks appended so far. -/
def dividirAux (texto : List Char) (chunk_size overlap : Int) :
    Nat → Int → List (List Char) → Option (List (List Char))
  | 0, _, _ => none
  | fuel + 1, inicio, chunks =>
    if inicio < (texto.length : Int) then
      let fin := min (inicio + chunk_size) (texto.length : Int)
      let chunk := pySlice texto inicio fin
      let chunks2 :=
        if MIN_CHUNK_LENGTH ≤ (pyStrip chunk).length then chunks ++ [pyStrip chunk] else chunks
      if (texto.length : Int) ≤ fin then some chunks2
      else dividirAux texto chunk_size overlap fuel (fin - overlap) chunks2
    else some chunks

/-- `dividir_en_chunks(texto, chunk_size, overlap)`.  The fuel
`texto.length + 1` is enough whenever the loop terminates at all: each
iteration either breaks or strictly increases `inicio`. -/
def dividir_en_chunks (texto : List Char) (chunk_size overlap : Int) :
    Option (List (List Char)) :=
  dividirAux texto chunk_size overlap (texto.length + 1) 0 []

/-- The chunk-count formula exactly as the spec words it: Modelled from
the spec, `ceil((L - overlap) / (chunkSize - overlap))` clamped to be at
least 0, at `chunkSize = 800`, `overlap = 200` (the natural-number
truncated subtraction realises both the negative-numerator case and the
clamp). -/
def specChunkCount (L : Nat) : Nat := (L - 200 + 599) / 600

/-! ## Context expander (`expandir_con_chunks_adyacentes`, lines 324-357) -/

/-- The `for i in range(1, n_vecinos + 1)` loop over preceding chunks:
keep `chunk_num - i` while it stays nonnegative. -/
def vecinos_anteriores (archivo : String) (pagina chunk_num n_vecinos : Nat) : List String :=
  (List.range n_vecinos).filterMap (fun j =>
    if j + 1 ≤ chunk_num then
      some (id_fragmento_expansion archivo pagina (chunk_num - (j + 1)))
    else none)

/-- The loop over following chunks, guarded by
`'total_chunks_in_page' in metadata`. -/
def vecinos_siguientes (archivo : String) (pagina chunk_num n_vecinos : Nat)
    (total : Option Nat) : List String :=
  match total with
  | none => []
  | some t =>
    (List.range n_vecinos).filterMap (fun j =>
      if chunk_num + (j + 1) < t then
        some (id_fragmento_expansion archivo pagina (chunk_num + (j + 1)))
      else none)

/-- `expandir_con_chunks_adyacentes(chunk_id, metadata, n_vecinos)`.
The `chunk_id` parameter is unused in the source as well. -/
def expandir_con_chunks_adyacentes (_chunk_id : String) (metadata : Meta)
    (n_vecinos : Nat) : List String :=
  let archivo := metadata.source
  let pagina := metadata.page
  let chunk_num := metadata.chunk.getD 0
  vecinos_anteriores archivo pagina chunk_num n_vecinos ++
    vecinos_siguientes archivo pagina chunk_num n_vecinos metadata.total_chunks_in_page

/-! ## Keyword extractor (`extraer_keywords`, lines 398-440) -/

/-- The stopword set of section 8.1 of the source, verbatim. -/
def STOPWORDS : List String :=
  [ "el", "la", "de", "en", "y", "a", "los", "las", "un", "una", "por", "para",
    "con", "del", "que", "es", "son", "se", "al", "como", "más", "su", "me",
    "está", "hay", "tiene", "puede", "ser", "sobre", "entre", "también",
    "podrías", "decirme", "cuáles", "cómo", "qué", "indica", "indicar", "puedes",
    "tres", "dos", "estas", "estos", "principales", "llaman", "partes",
    "the", "in", "and", "of", "to", "a", "is", "for", "on", "with", "as", "are",
    "this", "that", "it", "be", "or", "an", "by", "from", "at", "which"]

/-- The synonym-expansion table `TERMINOS_EXPANSION` of section 8.2,
verbatim, as an ordered association list. -/
def TERMINOS_EXPANSION : List (String × List String) :=
  [ ("transformer", ["encoder", "decoder", "attention", "self-attention", "multi-head"]),
    ("atención", ["attention", "query", "key", "value", "QKV", "self-attention"]),
    ("attention", ["query", "key", "value", "QKV", "softmax", "scaled"]),
    ("self-attention", ["query", "key", "value", "auto-atención"]),
    ("auto-atención", ["query", "key", "value", "self-attention"]),
    ("arquitectura", ["encoder", "decoder", "capas", "layers", "bloques"]),
    ("vectores", ["query", "key", "value", "embedding", "proyección"]),
    ("proyecta", ["query", "key", "value", "matrices", "proyección"]),
    ("encoder", ["codificador", "encoding", "entrada"]),
    ("decoder", ["decodificador", "decoding", "salida"]),
    ("llm", ["modelo", "language", "model", "gpt", "transformer"]),
    ("embedding", ["vector", "representación", "vectorial"])]

/-- Dictionary lookup `TERMINOS_EXPANSION[k]` (as an `Option`). -/
def lookupExpansion (k : String) : Option (List String) :=
  (TERMINOS_EXPANSION.find? (fun p => p.1 = k)).map (fun p => p.2)

/-- The first list comprehension of `extraer_keywords`: tokens longer
than 3 characters whose lowercased punctuation-stripped form is not a
stopword, each punctuation-stripped (original case preserved). -/
def keywords_filtradas (texto : String) : List String :=
  ((pySplitWs texto).filter (fun p =>
    3 < p.length && !(STOPWORDS.contains (stripPunct (pyLower p))))).map stripPunct

/-- The second list comprehension: tokens containing an uppercase
letter, a digit or a hyphen, punctuation-stripped. -/
def terminos_tecnicos_de (texto : String) : List String :=
  ((pySplitWs texto).filter (fun p =>
    p.data.any asciiIsUpper || p.data.any asciiIsDigit || p.data.contains '-')).map stripPunct

/-- `extraer_keywords(texto)`.  Python's `list(set(...))` leaves the
order unspecified; it is modelled by `List.dedup`, which is faithful to
the contents and duplicate-freeness. -/
def extraer_keywords (texto : String) : List String :=
  let keywords := (keywords_filtradas texto ++
    (terminos_tecnicos_de texto).map pyLower).dedup
  let keywords_expandidas := keywords ++
    (keywords.map (fun kw => (lookupExpansion (pyLower kw)).getD [])).flatten
  keywords_expandidas.dedup

/-- "Is a lowercase string": unchanged by Python `lower()`. -/
def esMinuscula (s : String) : Prop := pyLower s = s

instance (s : String) : Decidable (esMinuscula s) := by
  unfold esMinuscula; infer_instance

/-! ## The per-question fragment accumulator

`all_semantic_results` / `fragmentos_data` are Python dicts keyed by the
fragment id; they are modelled as insertion-ordered association lists.
Scores are Python floats accumulating exact values `1/(r+60)`,
`0.5 * n`, `0.6 * s + 0.4 * k`; they are modelled by exact rationals.
`distancia := none` models the `float('inf')` sentinel. -/

structure Entry where
  doc : String
  metadata : Meta
  distancia : Option ℚ
  id : String
  score_semantic : ℚ
  score_keyword : ℚ
  score_final : ℚ
  matches_kw : List String
  query_matches : List Nat
deriving DecidableEq, Repr

/-- The association-list model of the Python dict. -/
abbrev Dict := List (String × Entry)

def dictFind : Dict → String → Option Entry
  | [], _ => none
  | p :: tl, k => if p.1 = k then some p.2 else dictFind tl k

def dictContains (d : Dict) (k : String) : Bool := (dictFind d k).isSome

/-- Python dict insertion of a fresh key appends at the end. -/
def dictInsert (d : Dict) (k : String) (v : Entry) : Dict := d ++ [(k, v)]

def dictUpdate (d : Dict) (k : String) (f : Entry → Entry) : Dict :=
  d.map (fun p => if p.1 = k then (p.1, f p.2) else p)

/-- A raw store hit: `(document, distance, metadata)` as returned by
`collection.query`. -/
structure RawResult where
  doc : String
  metadata : Meta
  distancia : ℚ
deriving DecidableEq, Repr

/-! ## Semantic accumulation (lines 618-651) -/

/-- Processing one semantic hit at 1-based rank `rank` of variant
`q_idx` (0-based): create the entry with zeroed scores if absent, then
`score_semantic += 1.0 / (idx + 60)` and record `q_idx + 1`. -/
def procesar_resultado_semantico (q_idx rank : Nat) (r : RawResult) (d : Dict) : Dict :=
  let chunk_id := id_fragmento_semantica r.metadata
  let d1 :=
    if dictContains d chunk_id then d
    else dictInsert d chunk_id
      { doc := r.doc, metadata := r.metadata, distancia := some r.distancia,
        id := chunk_id, score_semantic := 0, score_keyword := 0, score_final := 0,
        matches_kw := [], query_matches := [] }
  dictUpdate d1 chunk_id (fun e =>
    { e with score_semantic := e.score_semantic + 1 / ((rank : ℚ) + 60),
             query_matches := e.query_matches ++ [q_idx + 1] })

/-- The `enumerate(..., 1)` loop over one variant's result list. -/
def procesar_variante (q_idx : Nat) : Nat → List RawResult → Dict → Dict
  | _, [], d => d
  | rank, r :: tl, d =>
    procesar_variante q_idx (rank + 1) tl (procesar_resultado_semantico q_idx rank r d)

/-- The `for q_idx, query in enumerate(queries)` loop: each variant's
store response feeds the shared accumulator. -/
def acumular_semanticas : Nat → List (List RawResult) → Dict → Dict
  | _, [], d => d
  | q_idx, rs :: tl, d => acumular_semanticas (q_idx + 1) tl (procesar_variante q_idx 1 rs d)

/-- `all_semantic_results` built from the per-variant store responses. -/
def all_semantic_results (variantes : List (List RawResult)) : Dict :=
  acumular_semanticas 0 variantes []

/-- The semantic score the accumulator holds for an id (0 if absent). -/
def semScoreOf (d : Dict) (cid : String) : ℚ :=
  ((dictFind d cid).map (fun e => e.score_semantic)).getD 0

def kwScoreOf (d : Dict) (cid : String) : ℚ :=
  ((dictFind d cid).map (fun e => e.score_keyword)).getD 0

def finalScoreOf (d : Dict) (cid : String) : ℚ :=
  ((dictFind d cid).map (fun e => e.score_final)).getD 0

/-- The claim's reference value: the total reciprocal-rank contribution
of one variant's ranked list to fragment `cid`, `1/(r+60)` at each
1-based rank `r` whose hit resolves to `cid`. -/
def contribVariante (cid : String) : Nat → List RawResult → ℚ
  | _, [] => 0
  | rank, r :: tl =>
    (if id_fragmento_semantica r.metadata = cid then 1 / ((rank : ℚ) + 60) else 0) +
      contribVariante cid (rank + 1) tl

/-! ## Keyword search (`busqueda_por_keywords`, lines 443-512)

The store is a function from the queried keyword (used both as query
text and `$contains` filter) and `n_results` to an optional hit list;
`none` models a raised exception, which the source swallows. -/

structure KwResult where
  doc : String
  metadata : Meta
  distancia : ℚ
  keyword_match : String
  id : String
deriving DecidableEq, Repr

/-- The five case variants of one keyword; the Python `set` literal is
modelled by deduplication in construction order. -/
def variantes_de (keyword_base : String) : List String :=
  [keyword_base, pyLower keyword_base, pyUpper keyword_base,
    pyCapitalize keyword_base, pyTitle keyword_base].dedup

/-- One `collection.query` call for a case variant: skipped below length
3, exception (`none`) swallowed, each hit tagged with the base keyword
and its recomputed id. -/
def consultar_variante (store : String → Nat → Option (List RawResult))
    (n_results : Nat) (keyword_base keyword : String) : List KwResult :=
  match store keyword n_results with
  | none => []
  | some rs => rs.map (fun r =>
      { doc := r.doc, metadata := r.metadata, distancia := r.distancia,
        keyword_match := keyword_base, id := id_fragmento_keywords r.metadata })

/-- `busqueda_por_keywords(pregunta, collection, n_results)`.  Besides
the hit list the model returns the trace of store queries issued, so
"issues no store queries" is provable.  An empty keyword list returns
immediately (line 461). -/
def busqueda_por_keywords (pregunta : String)
    (store : String → Nat → Option (List RawResult)) (n_results : Nat) :
    List KwResult × List String :=
  let keywords := extraer_keywords pregunta
  if keywords = [] then ([], [])
  else
    ((keywords.take 12).map (fun keyword_base =>
      ((variantes_de keyword_base).map (fun keyword =>
        if keyword.length < 3 then ([], [])
        else (consultar_variante store n_results keyword_base keyword, [keyword]))))).flatten.foldl
      (fun acc p => (acc.1 ++ p.1, acc.2 ++ p.2)) ([], [])

/-! ## Exhaustive scan results and fusion (lines 515-737) -/

/-- One `busqueda_exhaustiva_texto` result: fragment plus matched
critical terms. -/
structure ExhResult where
  doc : String
  metadata : Meta
  id : String
  matches_encontrados : List String
  num_matches : Nat
deriving DecidableEq, Repr

/-- Fusing one keyword hit at 1-based rank `rank` of the keyword result
list (lines 671-687): existing entries get
`score_keyword += 1/(idx+60)`, new entries start with
`score_semantic = 0`. -/
def fusionar_resultado_keyword (rank : Nat) (r : KwResult) (d : Dict) : Dict :=
  let chunk_id := r.id
  if dictContains d chunk_id then
    dictUpdate d chunk_id (fun e =>
      { e with score_keyword := e.score_keyword + 1 / ((rank : ℚ) + 60),
               matches_kw := e.matches_kw ++ [r.keyword_match] })
  else
    dictInsert d chunk_id
      { doc := r.doc, metadata := r.metadata, distancia := some r.distancia,
        id := chunk_id, score_semantic := 0,
        score_keyword := 1 / ((rank : ℚ) + 60), score_final := 0,
        matches_kw := [r.keyword_match], query_matches := [] }

/-- The whole keyword-fusion loop. -/
def fusionar_keywords : Nat → List KwResult → Dict → Dict
  | _, [], d => d
  | rank, r :: tl, d => fusionar_keywords (rank + 1) tl (fusionar_resultado_keyword rank r d)

/-- `frag['score_final'] = score_semantic * 0.6 + score_keyword * 0.4`
for every fragment (lines 690-691 and 725-726). -/
def calcular_score_final (d : Dict) : Dict :=
  d.map (fun p =>
    (p.1, { p.2 with score_final := p.2.score_semantic * (6/10) + p.2.score_keyword * (4/10) }))

/-- Fusing one exhaustive-scan result (lines 706-722):
`score_keyword += 0.5 * num_matches`; new entries carry the infinite
distance sentinel. -/
def fusionar_resultado_exhaustivo (r : ExhResult) (d : Dict) : Dict :=
  let chunk_id := r.id
  if dictContains d chunk_id then
    dictUpdate d chunk_id (fun e =>
      { e with score_keyword := e.score_keyword + (1/2) * (r.num_matches : ℚ),
               matches_kw := e.matches_kw ++ r.matches_encontrados })
  else
    dictInsert d chunk_id
      { doc := r.doc, metadata := r.metadata, distancia := none,
        id := chunk_id, score_semantic := 0,
        score_keyword := (1/2) * (r.num_matches : ℚ), score_final := 0,
        matches_kw := r.matches_encontrados, query_matches := [] }

/-- `mejor_score = fragmentos_ranked[0]['score_final'] if fragmentos_ranked
else 0` (line 735). -/
def mejor_score (fragmentos_ranked : List Entry) : ℚ :=
  match fragmentos_ranked with
  | [] => 0
  | f :: _ => f.score_final

/-! ## Selection, context expansion and gating
(`ejecutar_chat`, lines 1065-1122)

`collection.get(ids=...)` is an opaque parameter returning the fetched
`(document, metadata)` pairs, `none` modelling a raised exception
(swallowed by the source). -/

instance : Inhabited Entry :=
  ⟨{ doc := "", metadata := ⟨"", 0, none, none⟩, distancia := none, id := "",
     score_semantic := 0, score_keyword := 0, score_final := 0,
     matches_kw := [], query_matches := [] }⟩

/-- Processing the neighbour fetch of one top fragment (lines
1086-1112): state is `(chunks_adicionales, ids_usados)`. -/
def expandir_fragmento (store_get : List String → Option (List (String × Meta)))
    (st : List Entry × List String) (frag : Entry) : List Entry × List String :=
  let ids_vecinos := expandir_con_chunks_adyacentes frag.id frag.metadata 1
  if ids_vecinos = [] then st
  else
    match store_get ids_vecinos with
    | none => st
    | some vecinos =>
      vecinos.foldl (fun st2 v =>
        let v_id := id_fragmento_vecino v.2
        if v_id ∈ st2.2 then st2
        else
          (st2.1 ++ [{ doc := v.1, metadata := v.2, distancia := none,
                       id := v_id, score_semantic := 0, score_keyword := 0,
                       score_final := 0, matches_kw := [], query_matches := [] }],
            st2.2 ++ [v_id])) st

/-- Lines 1079-1115: take the top `TOP_K_FINAL` fragments and, when
context expansion applies, append the fetched neighbours of the first
six.  (The appended Python dicts carry only
`doc/metadata/distancia/score_final/id`; the remaining `Entry` fields
are zeroed here.) -/
def seleccionar_y_expandir (fragmentos_ranked : List Entry)
    (store_get : List String → Option (List (String × Meta))) : List Entry :=
  let fragmentos_finales := fragmentos_ranked.take TOP_K_FINAL
  let ids_usados := fragmentos_finales.map (fun f => f.id)
  if EXPANDIR_CONTEXTO &&
      !fragmentos_finales.isEmpty &&
      (fragmentos_finales.headD default).metadata.chunk.isSome then
    let st := (fragmentos_finales.take 6).foldl (expandir_fragmento store_get) ([], ids_usados)
    fragmentos_finales ++ st.1
  else fragmentos_finales

/-- The three outcomes of one retrieval cycle: the structured
"no information found" message, the structured "out of scope" message,
or generation over the selected-and-expanded fragments. -/
inductive Resultado where
  | sin_informacion : Resultado
  | fuera_de_ambito : Resultado
  | generar : List Entry → Resultado
deriving DecidableEq, Repr

/-- The retrieval-cycle branch structure of `ejecutar_chat`
(lines 1065-1122): empty ranked list, best score below
`UMBRAL_RELEVANCIA`, or selection / expansion / generation. -/
def ciclo_consulta (fragmentos_ranked : List Entry) (mejor : ℚ)
    (store_get : List String → Option (List (String × Meta))) : Resultado :=
  if fragmentos_ranked.isEmpty then Resultado.sin_informacion
  else if mejor < UMBRAL_RELEVANCIA then Resultado.fuera_de_ambito
  else Resultado.generar (seleccionar_y_expandir fragmentos_ranked store_get)

/-! ## Helper lemmas on the dictionary model -/

theorem dictFind_dictUpdate (d : Dict) (k : String) (f : Entry → Entry) (cid : String) :
    dictFind (dictUpdate d k f) cid =
      if k = cid then (dictFind d cid).map f else dictFind d cid := by
  induction d with
  | nil => simp only [dictUpdate, List.map_nil, dictFind]; split <;> simp
  | cons a tl ih =>
    by_cases hak : a.1 = k
    · by_cases hc : a.1 = cid
      · have hkc : k = cid := hak.symm.trans hc
        simp [dictUpdate, dictFind, hak, hc, hkc]
      · have hkc : ¬ k = cid := fun h => hc (hak.trans h)
        simp only [dictUpdate, List.map_cons, if_pos hak, dictFind, hc, if_neg hc,
          if_neg hkc] at *
        simpa [dictUpdate, if_neg hkc] using ih
    · by_cases hc : a.1 = cid
      · have hkc : ¬ k = cid := fun h => hak (hc.trans h.symm)
        have hck : ¬ cid = k := fun h => hkc h.symm
        simp [dictUpdate, dictFind, hak, hc, hkc, hck]
      · simp only [dictUpdate, List.map_cons, if_neg hak, dictFind, if_neg hc] at *
        simpa [dictUpdate] using ih

theorem dictFind_dictInsert (d : Dict) (k : String) (v : Entry) (cid : String) :
    dictFind (dictInsert d k v) cid =
      match dictFind d cid with
      | some e => some e
      | none => if k = cid then some v else none := by
  induction d with
  | nil => by_cases h : k = cid <;> simp [dictFind, dictInsert, h]
  | cons a tl ih =>
    by_cases hc : a.1 = cid
    · simp [dictFind, dictInsert, hc]
    · simp only [dictInsert, List.cons_append, dictFind, if_neg hc] at *
      simpa [dictInsert] using ih

theorem semScoreOf_nil (cid : String) : semScoreOf [] cid = 0 := rfl

/-! ## C4: fragment id determinism -/

/-- C4: the fragment id for a `(source document, page, chunk)` triple is
the same character string at indexing time (line 864), when collecting
semantic hits (line 634), when collecting keyword hits (line 495), when
the context expander forms neighbour ids (lines 349/355), and when
fetched neighbours are re-keyed (line 1101). -/
theorem ids_fragmento_coinciden (archivo : String) (pagina chunk : Nat) (total : Option Nat) :
    id_fragmento_indexar archivo pagina chunk =
        id_fragmento_semantica ⟨archivo, pagina, some chunk, total⟩ ∧
      id_fragmento_indexar archivo pagina chunk =
        id_fragmento_keywords ⟨archivo, pagina, some chunk, total⟩ ∧
      id_fragmento_indexar archivo pagina chunk =
        id_fragmento_expansion archivo pagina chunk ∧
      id_fragmento_indexar archivo pagina chunk =
        id_fragmento_vecino ⟨archivo, pagina, some chunk, total⟩ :=
  ⟨rfl, rfl, rfl, rfl⟩

/-! ## C8: neighbour expansion -/

/-- C8: with `nNeighbors = 1`, a fragment at `chunkIndex = 2` of a page
with `totalChunksInPage = 5` expands to exactly the ids of chunks 1 and
3; a fragment at `chunkIndex = 0` with known `totalChunksInPage > 1`
expands to the successor id only. -/
theorem expandir_adyacentes_casos (archivo : String) (pagina : Nat) :
    (expandir_con_chunks_adyacentes (id_fragmento_expansion archivo pagina 2)
        ⟨archivo, pagina, some 2, some 5⟩ 1 =
      [id_fragmento_expansion archivo pagina 1, id_fragmento_expansion archivo pagina 3]) ∧
    ∀ total : Nat, 1 < total →
      expandir_con_chunks_adyacentes (id_fragmento_expansion archivo pagina 0)
          ⟨archivo, pagina, some 0, some total⟩ 1 =
        [id_fragmento_expansion archivo pagina 1] := by
  constructor
  · rfl
  · intro total htotal
    simp [expandir_con_chunks_adyacentes, vecinos_anteriores, vecinos_siguientes,
      List.range_succ, htotal]

/-- Witness for C8 at a concrete document, page and total. -/
theorem expandir_adyacentes_casos_witness :
    expandir_con_chunks_adyacentes (id_fragmento_expansion "doc.pdf" 0 0)
        ⟨"doc.pdf", 0, some 0, some 3⟩ 1 =
      [id_fragmento_expansion "doc.pdf" 0 1] :=
  (expandir_adyacentes_casos "doc.pdf" 0).2 3 (by norm_num)

/-! ## C1: relevance gating -/

/-- C1: a retrieval cycle with an empty ranked list yields the
"no information found" outcome; a non-empty list whose top fused score
is below `UMBRAL_RELEVANCIA` yields the "out of scope" outcome; a top
score at or above the threshold proceeds to fragment selection, context
expansion and generation.  `mejor_score` is the value returned by
`realizar_busqueda_hibrida` (line 735). -/
theorem ciclo_consulta_gating (ranked : List Entry)
    (store_get : List String → Option (List (String × Meta))) :
    (ranked = [] →
      ciclo_consulta ranked (mejor_score ranked) store_get = Resultado.sin_informacion) ∧
    (∀ f fs, ranked = f :: fs → f.score_final < UMBRAL_RELEVANCIA →
      ciclo_consulta ranked (mejor_score ranked) store_get = Resultado.fuera_de_ambito) ∧
    (∀ f fs, ranked = f :: fs → UMBRAL_RELEVANCIA ≤ f.score_final →
      ciclo_consulta ranked (mejor_score ranked) store_get =
        Resultado.generar (seleccionar_y_expandir ranked store_get)) := by
  refine ⟨?_, ?_, ?_⟩
  · intro h; subst h; rfl
  · intro f fs h hlt; subst h
    simp [ciclo_consulta, mejor_score, hlt]
  · intro f fs h hge; subst h
    simp [ciclo_consulta, mejor_score, not_lt.mpr hge]

/-- Witness for C1: all three gate branches hit at concrete inputs
(top score 0 for the below-threshold branch, 1 for the at-or-above
branch). -/
theorem ciclo_consulta_gating_witness :
    (ciclo_consulta [] (mejor_score []) (fun _ => none) = Resultado.sin_informacion) ∧
    (ciclo_consulta [default] (mejor_score [default]) (fun _ => none) =
      Resultado.fuera_de_ambito) ∧
    (ciclo_consulta [{ (default : Entry) with score_final := 1 }]
        (mejor_score [{ (default : Entry) with score_final := 1 }]) (fun _ => none) =
      Resultado.generar (seleccionar_y_expandir
        [{ (default : Entry) with score_final := 1 }] (fun _ => none))) :=
  ⟨(ciclo_consulta_gating [] (fun _ => none)).1 rfl,
    (ciclo_consulta_gating [default] (fun _ => none)).2.1 default [] rfl (by
      show (0 : ℚ) < 2 / 100
      norm_num),
    (ciclo_consulta_gating [{ (default : Entry) with score_final := 1 }]
        (fun _ => none)).2.2 _ [] rfl (by
      show (2 : ℚ) / 100 ≤ 1
      norm_num)⟩

/-! ## C10: empty keyword set short-circuits keyword search -/

/-- C10: when `extraer_keywords` yields no keywords, the keyword search
returns the empty result list and issues no store queries (the second
component is the trace of queries issued). -/
theorem busqueda_keywords_vacia (pregunta : String)
    (store : String → Nat → Option (List RawResult)) (n_results : Nat)
    (h : extraer_keywords pregunta = []) :
    busqueda_por_keywords pregunta store n_results = ([], []) := by
  simp [busqueda_por_keywords, h]

/-- Witness for C10: the empty question extracts no keywords, and the
search returns no hits and queries nothing, whatever the store holds. -/
theorem busqueda_keywords_vacia_witness :
    busqueda_por_keywords "" (fun _ _ => some []) 20 = ([], []) :=
  busqueda_keywords_vacia "" (fun _ _ => some []) 20 (by decide)

/-! ## C2: `chunkSize <= overlap` is not rejected -- the loop diverges -/

/-- C2 (code bug): with `chunk_size = overlap = 800` and a text of 801
characters, `dividir_en_chunks` performs no configuration check and its
loop never terminates (`inicio` stays at `800 - 800 = 0` forever): the
embedded loop returns `none` for every fuel.  The claimed fail-fast
configuration error does not exist in the code. -/
theorem dividir_en_chunks_no_valida_configuracion :
    ∀ (fuel : Nat) (acc : List (List Char)),
      dividirAux (List.replicate 801 'a') 800 800 fuel 0 acc = none := by
  intro fuel
  induction fuel with
  | zero => intro acc; rfl
  | succ f ih =>
    intro acc
    simp only [dividirAux, List.length_replicate]
    norm_num
    exact ih _

/-! ## C9: termination when `overlap < chunkSize` -/

/-- Fuel bound for the chunking loop: when `overlap < chunk_size` every
iteration either breaks or strictly increases `inicio` (by
`chunk_size - overlap ≥ 1`), so `texto.length - inicio` bounds the
remaining iterations. -/
theorem dividirAux_isSome (texto : List Char) (cs ov : Int) (hov : ov < cs) :
    ∀ (fuel : Nat) (inicio : Int) (acc : List (List Char)),
      (texto.length : Int) - inicio < fuel → 1 ≤ fuel →
      (dividirAux texto cs ov fuel inicio acc).isSome := by
  intro fuel
  induction fuel with
  | zero => intro inicio acc _ h1; omega
  | succ f ih =>
    intro inicio acc hlt _
    simp only [dividirAux]
    by_cases h1 : inicio < (texto.length : Int)
    · rw [if_pos h1]
      by_cases h2 : (texto.length : Int) ≤ min (inicio + cs) (texto.length : Int)
      · simp only [if_pos h2, Option.isSome_some]
      · simp only [if_neg h2]
        have hfin : min (inicio + cs) (texto.length : Int) = inicio + cs := by
          rcases min_cases (inicio + cs) ((texto.length : Int)) with ⟨he, _⟩ | ⟨he, _⟩
          · exact he
          · exact absurd (le_of_eq he.symm) h2
        rw [hfin] at h2 ⊢
        have hcs : inicio + cs < (texto.length : Int) := not_le.mp h2
        apply ih
        · push_cast at hlt ⊢; omega
        · omega
    · rw [if_neg h1]; exact Option.isSome_some

/-- C9: `dividir_en_chunks` terminates for every text whenever
`overlap < chunkSize`: the fuel `texto.length + 1` always suffices. -/
theorem dividir_en_chunks_termina (texto : List Char) (cs ov : Int) (hov : ov < cs) :
    (dividir_en_chunks texto cs ov).isSome := by
  apply dividirAux_isSome texto cs ov hov
  · push_cast; omega
  · omega

/-- Witness for C9 at the default configuration and a concrete text. -/
theorem dividir_en_chunks_termina_witness :
    (200 : Int) < 800 ∧ (dividir_en_chunks (List.replicate 950 'b') 800 200).isSome :=
  ⟨by norm_num, dividir_en_chunks_termina (List.replicate 950 'b') 800 200 (by norm_num)⟩

/-! ## C7: fusion monotonicity -/

/-- `calcular_score_final` recomputes `score_final` pointwise from the
weighted `0.6 / 0.4` combination. -/
theorem finalScoreOf_calcular (d : Dict) (cid : String) :
    finalScoreOf (calcular_score_final d) cid =
      ((dictFind d cid).map
        (fun e => e.score_semantic * (6/10) + e.score_keyword * (4/10))).getD 0 := by
  induction d with
  | nil => rfl
  | cons a tl ih =>
    by_cases hc : a.1 = cid
    · simp [calcular_score_final, dictFind, finalScoreOf, hc]
    · simp only [calcular_score_final, List.map_cons, finalScoreOf, dictFind, if_neg hc] at *
      simpa [calcular_score_final, finalScoreOf] using ih

/-- C7: fusion is monotone.  Folding in one keyword-search hit at any
1-based rank never decreases any fragment's recomputed `finalScore`, and
folding in one exhaustive-scan match never decreases any fragment's
`keywordScore`. -/
theorem fusion_monotona :
    (∀ (d : Dict) (rank : Nat) (r : KwResult) (cid : String),
      finalScoreOf (calcular_score_final d) cid ≤
        finalScoreOf (calcular_score_final (fusionar_resultado_keyword rank r d)) cid) ∧
    (∀ (d : Dict) (r : ExhResult) (cid : String),
      kwScoreOf d cid ≤ kwScoreOf (fusionar_resultado_exhaustivo r d) cid) := by
  have hrr : ∀ rank : Nat, (0:ℚ) ≤ 1 / ((rank:ℚ) + 60) := fun rank => by positivity
  constructor
  · intro d rank r cid
    rw [finalScoreOf_calcular, finalScoreOf_calcular]
    unfold fusionar_resultado_keyword
    by_cases hmem : dictContains d r.id
    · rw [if_pos hmem, dictFind_dictUpdate]
      by_cases hid : r.id = cid
      · rw [if_pos hid]
        cases hfound : dictFind d cid with
        | none => simp
        | some e =>
          simp only [Option.map_some', Option.getD_some]
          have h4 : (0:ℚ) ≤ (1 / ((rank:ℚ) + 60)) * (4/10) := by positivity
          linarith
      · rw [if_neg hid]
    · rw [if_neg hmem, dictFind_dictInsert]
      cases hfound : dictFind d cid with
      | some e => simp
      | none =>
        simp only [Option.map_none', Option.getD_none]
        by_cases hid : r.id = cid
        · rw [if_pos hid]
          simp only [Option.map_some', Option.getD_some]
          positivity
        · rw [if_neg hid]
          simp
  · intro d r cid
    unfold fusionar_resultado_exhaustivo kwScoreOf
    have hnm : (0:ℚ) ≤ (1/2) * (r.num_matches : ℚ) := by positivity
    by_cases hmem : dictContains d r.id
    · rw [if_pos hmem, dictFind_dictUpdate]
      by_cases hid : r.id = cid
      · rw [if_pos hid]
        cases hfound : dictFind d cid with
        | none => simp
        | some e =>
          simp only [Option.map_some', Option.getD_some]
          linarith
      · rw [if_neg hid]
    · rw [if_neg hmem, dictFind_dictInsert]
      cases hfound : dictFind d cid with
      | some e => simp
      | none =>
        simp only [Option.map_none', Option.getD_none]
        by_cases hid : r.id = cid
        · rw [if_pos hid]
          simp only [Option.map_some', Option.getD_some]
          positivity
        · rw [if_neg hid]
          simp

/-! ## C5: reciprocal-rank fusion of the semantic variants -/

/-- One semantic hit at 1-based rank `rank` adds exactly
`1/(rank + 60)` to the semantic score of the id it resolves to, and
nothing to any other id. -/
theorem semScoreOf_procesar_resultado (q_idx rank : Nat) (r : RawResult) (d : Dict)
    (cid : String) :
    semScoreOf (procesar_resultado_semantico q_idx rank r d) cid =
      semScoreOf d cid +
        (if id_fragmento_semantica r.metadata = cid then 1 / ((rank:ℚ) + 60) else 0) := by
  simp only [procesar_resultado_semantico, semScoreOf]
  by_cases hmem : dictContains d (id_fragmento_semantica r.metadata)
  · rw [if_pos hmem, dictFind_dictUpdate]
    by_cases hid : id_fragmento_semantica r.metadata = cid
    · rw [if_pos hid]
      cases hfound : dictFind d cid with
      | none =>
        rw [hid] at hmem
        simp [dictContains, hfound] at hmem
      | some e => simp [hid]
    · rw [if_neg hid, if_neg hid]
      simp
  · rw [if_neg hmem, dictFind_dictUpdate]
    by_cases hid : id_fragmento_semantica r.metadata = cid
    · rw [if_pos hid, dictFind_dictInsert]
      have hnone : dictFind d cid = none := by
        rw [← hid]
        cases h : dictFind d (id_fragmento_semantica r.metadata) with
        | none => rfl
        | some e => simp [dictContains, h] at hmem
      rw [hnone]
      simp [hid]
    · rw [if_neg hid, dictFind_dictInsert]
      cases hfound : dictFind d cid with
      | none => simp [if_neg hid]
      | some e => simp [hid]

/-- Folding one variant's ranked list into the accumulator adds that
variant's total reciprocal-rank contribution to every id. -/
theorem semScoreOf_procesar_variante (q_idx : Nat) (rs : List RawResult) :
    ∀ (rank : Nat) (d : Dict) (cid : String),
      semScoreOf (procesar_variante q_idx rank rs d) cid =
        semScoreOf d cid + contribVariante cid rank rs := by
  induction rs with
  | nil => intro rank d cid; simp [procesar_variante, contribVariante]
  | cons r tl ih =>
    intro rank d cid
    simp only [procesar_variante, contribVariante]
    rw [ih, semScoreOf_procesar_resultado]
    ring

/-- Folding all variants accumulates the per-variant contributions. -/
theorem semScoreOf_acumular (vs : List (List RawResult)) :
    ∀ (q_idx : Nat) (d : Dict) (cid : String),
      semScoreOf (acumular_semanticas q_idx vs d) cid =
        semScoreOf d cid + (vs.map (contribVariante cid 1)).sum := by
  induction vs with
  | nil => intro q d cid; simp [acumular_semanticas]
  | cons rs tl ih =>
    intro q d cid
    simp only [acumular_semanticas, List.map_cons, List.sum_cons]
    rw [ih, semScoreOf_procesar_variante]
    ring

/-- C5: after the multi-variant semantic phase, every fragment's
`semanticScore` is exactly the sum over all variants of `1/(r + 60)`
over the 1-based ranks `r` at which that fragment appears in the
variant's result list (additive across variants, `0` if it never
appears). -/
theorem score_semantico_es_rrf (variantes : List (List RawResult)) (cid : String) :
    semScoreOf (all_semantic_results variantes) cid =
      (variantes.map (contribVariante cid 1)).sum := by
  unfold all_semantic_results
  rw [semScoreOf_acumular]
  simp [semScoreOf_nil]

/-! ## C3: the chunk count -/

theorem dropWhile_eq_self_of (p : Char → Bool) (l : List Char)
    (h : ∀ c ∈ l, p c = false) : l.dropWhile p = l := by
  cases l with
  | nil => rfl
  | cons c tl => simp [List.dropWhile_cons, h c (List.mem_cons_self c tl)]

theorem pyStrip_eq_self (l : List Char) (h : ∀ c ∈ l, c.isWhitespace = false) :
    pyStrip l = l := by
  unfold pyStrip stripWhile
  rw [dropWhile_eq_self_of _ _ h, dropWhile_eq_self_of, List.reverse_reverse]
  intro c hc
  exact h c (List.mem_reverse.mp hc)

theorem pySlice_length (l : List Char) (a b : Int) (ha : 0 ≤ a) (hab : a ≤ b)
    (hb : b ≤ (l.length : Int)) : ((pySlice l a b).length : Int) = b - a := by
  unfold pySlice pySliceNorm
  rw [if_neg (not_lt.mpr ha), if_neg (not_lt.mpr (le_trans ha hab)),
    min_eq_left hb, min_eq_left (le_trans hab hb)]
  have hbn : b.toNat ≤ l.length := by omega
  simp only [List.length_drop, List.length_take, min_eq_left hbn]
  omega

theorem pySlice_subset (l : List Char) (a b : Int) : ∀ c ∈ pySlice l a b, c ∈ l := by
  intro c hc
  unfold pySlice at hc
  exact List.take_subset _ _ (List.drop_subset _ _ hc)

/-- Iteration count of the chunking loop at the default configuration
(`chunkSize = 800`, `overlap = 200`, `minLength = 100`), for
whitespace-free texts: starting at offset `inicio` with at least
`minLength` characters remaining, every candidate survives the strip
filter and exactly `max 1 (ceil((L - inicio - 200) / 600))` further
chunks are appended. -/
theorem dividirAux_cuenta (texto : List Char)
    (hws : ∀ c ∈ texto, c.isWhitespace = false) :
    ∀ (fuel inicio : Nat) (acc : List (List Char)),
      inicio + 100 ≤ texto.length →
      texto.length - inicio < fuel →
      ∃ l, dividirAux texto 800 200 fuel (inicio : Int) acc = some l ∧
        l.length = acc.length + max 1 ((texto.length - inicio - 200 + 599) / 600) := by
  intro fuel
  induction fuel with
  | zero => intro inicio acc h1 h2; omega
  | succ f ih =>
    intro inicio acc h1 h2
    have hlen : inicio < texto.length := by omega
    simp only [dividirAux]
    rw [if_pos (by exact_mod_cast hlen : ((inicio : Nat) : Int) < (texto.length : Int))]
    set fin := min (((inicio : Nat) : Int) + 800) ((texto.length : Int)) with hfin_def
    have hfin_ge : ((inicio : Nat) : Int) + 100 ≤ fin := by
      apply le_min
      · omega
      · exact_mod_cast h1
    have hfin_le : fin ≤ (texto.length : Int) := min_le_right _ _
    have hfin_le800 : fin ≤ ((inicio : Nat) : Int) + 800 := min_le_left _ _
    have hchunk_len :
        ((pySlice texto ((inicio : Nat) : Int) fin).length : Int) = fin - (inicio : Nat) :=
      pySlice_length texto _ fin (by omega) (by omega) hfin_le
    have hstrip : pyStrip (pySlice texto ((inicio : Nat) : Int) fin) =
        pySlice texto ((inicio : Nat) : Int) fin :=
      pyStrip_eq_self _ (fun c hc => hws c (pySlice_subset _ _ _ c hc))
    have hkeep : MIN_CHUNK_LENGTH ≤
        (pyStrip (pySlice texto ((inicio : Nat) : Int) fin)).length := by
      rw [hstrip]
      unfold MIN_CHUNK_LENGTH
      omega
    rw [if_pos hkeep]
    by_cases hbreak : (texto.length : Int) ≤ fin
    · rw [if_pos hbreak]
      refine ⟨_, rfl, ?_⟩
      rw [List.length_append, List.length_singleton]
      have hle : texto.length - inicio ≤ 800 := by omega
      have hdiv : (texto.length - inicio - 200 + 599) / 600 ≤ 1 := by
        have hnum : texto.length - inicio - 200 + 599 ≤ 1199 := by omega
        calc (texto.length - inicio - 200 + 599) / 600 ≤ 1199 / 600 :=
              Nat.div_le_div_right hnum
          _ = 1 := by norm_num
      rw [Nat.max_eq_left hdiv]
    · rw [if_neg hbreak]
      have hfin_eq : fin = ((inicio : Nat) : Int) + 800 := by
        rcases min_cases (((inicio : Nat) : Int) + 800) ((texto.length : Int)) with
          ⟨he, _⟩ | ⟨he, _⟩
        · exact he
        · exact absurd (le_of_eq he.symm) hbreak
      have hlt2 : inicio + 800 < texto.length := by
        rw [hfin_eq] at hbreak
        have := not_le.mp hbreak
        omega
      have harg : fin - 200 = ((inicio + 600 : Nat) : Int) := by
        rw [hfin_eq]; push_cast; ring
      rw [harg]
      obtain ⟨l, hl, hlen2⟩ := ih (inicio + 600)
        (acc ++ [pyStrip (pySlice texto ((inicio : Nat) : Int) fin)])
        (by omega) (by omega)
      refine ⟨l, hl, ?_⟩
      rw [hlen2, List.length_append, List.length_singleton]
      have hn : 801 ≤ texto.length - inicio := by omega
      have e1 : texto.length - (inicio + 600) - 200 + 599 = texto.length - inicio - 201 := by
        omega
      have e2 : texto.length - inicio - 200 + 599 = texto.length - inicio + 399 := by omega
      rw [e1, e2]
      have h1' : 1 ≤ (texto.length - inicio - 201) / 600 := by
        rw [Nat.le_div_iff_mul_le (by norm_num : 0 < 600)]
        omega
      have h2' : 1 ≤ (texto.length - inicio + 399) / 600 := by
        rw [Nat.le_div_iff_mul_le (by norm_num : 0 < 600)]
        omega
      rw [Nat.max_eq_right h1', Nat.max_eq_right h2']
      have hstep : (texto.length - inicio - 201) / 600 + 1 =
          (texto.length - inicio + 399) / 600 := by
        have h600 : texto.length - inicio + 399 = (texto.length - inicio - 201) + 600 := by
          omega
        rw [h600, Nat.add_div_right _ (by norm_num : 0 < 600)]
      omega

set_option maxRecDepth 8000 in
/-- C3 (counterexample): on 150 non-whitespace characters the code keeps
one chunk, while the spec formula `ceil((L - overlap)/(chunkSize -
overlap))` clamped to at least 0 gives 0. -/
theorem cuenta_chunks_contraejemplo :
    ¬ ((dividir_en_chunks (List.replicate 150 'a') 800 200).map List.length =
        some (specChunkCount 150)) := by decide

/-- C3 (amended): for whitespace-free texts of length at least
`minLength = 100`, the number of chunks is the spec formula clamped to
at least **1** (not 0): `max 1 (ceil((L - 200) / 600))`. -/
theorem cuenta_chunks_formula (texto : List Char)
    (hws : ∀ c ∈ texto, c.isWhitespace = false) (hlen : 100 ≤ texto.length) :
    (dividir_en_chunks texto 800 200).map List.length =
      some (max 1 (specChunkCount texto.length)) := by
  obtain ⟨l, hl, hlen2⟩ := dividirAux_cuenta texto hws (texto.length + 1) 0 []
    (by omega) (by omega)
  unfold dividir_en_chunks
  rw [show ((0 : Nat) : Int) = (0 : Int) from rfl] at hl
  rw [hl]
  simp only [Option.map_some', Option.some.injEq]
  rw [hlen2]
  simp [specChunkCount]

/-- Witness for the amended C3 at a concrete text of length 150. -/
theorem cuenta_chunks_formula_witness :
    (dividir_en_chunks (List.replicate 150 'a') 800 200).map List.length =
      some (max 1 (specChunkCount 150)) :=
  cuenta_chunks_formula (List.replicate 150 'a')
    (by
      intro c hc
      rw [List.eq_of_mem_replicate hc]
      rfl)
    (by simp)

/-! ## C6: shape of the extracted keyword set -/

theorem toNat_ofNat_valid (n : Nat) (h : n < 55296) : (Char.ofNat n).toNat = n := by
  have hv : n.isValidChar := Or.inl h
  simp only [Char.ofNat]
  rw [dif_pos hv]
  rfl

theorem asciiLower_idem (c : Char) : asciiLower (asciiLower c) = asciiLower c := by
  unfold asciiLower
  by_cases h : 65 ≤ c.toNat ∧ c.toNat ≤ 90
  · rw [if_pos h]
    have ht : (Char.ofNat (c.toNat + 32)).toNat = c.toNat + 32 :=
      toNat_ofNat_valid _ (by omega)
    rw [ht, if_neg (by omega)]
  · rw [if_neg h, if_neg h]

/-- Python `lower()` is idempotent, so every lowercased token is a
lowercase string. -/
theorem esMinuscula_pyLower (s : String) : esMinuscula (pyLower s) := by
  unfold esMinuscula pyLower
  apply congrArg
  show (s.data.map asciiLower).map asciiLower = s.data.map asciiLower
  rw [List.map_map]
  have hcomp : asciiLower ∘ asciiLower = asciiLower := funext asciiLower_idem
  rw [hcomp]

set_option maxRecDepth 8000 in
/-- C6 (counterexample): `extraer_keywords "Transformer"` contains the
keyword `"Transformer"`, which is not a lowercase string (the
stopword-filtered tokens are stripped but never lowercased; only the
technical-term copies are). -/
theorem extraer_keywords_no_todo_minusculas :
    "Transformer" ∈ extraer_keywords "Transformer" ∧ ¬ esMinuscula "Transformer" := by
  decide

/-- C6 (amended): the output is duplicate-free, and every keyword in it
is either a stopword-filtered punctuation-stripped token of the input in
its original case, or a lowercase string (the lowercased technical
terms), or a synonym drawn from the `TERMINOS_EXPANSION` table. -/
theorem extraer_keywords_forma (texto : String) :
    (extraer_keywords texto).Nodup ∧
    ∀ k ∈ extraer_keywords texto,
      k ∈ keywords_filtradas texto ∨ esMinuscula k ∨
        ∃ p ∈ TERMINOS_EXPANSION, k ∈ p.2 := by
  constructor
  · simp only [extraer_keywords]
    exact List.nodup_dedup _
  · intro k hk
    simp only [extraer_keywords, List.mem_dedup] at hk
    rcases List.mem_append.mp hk with hk1 | hk2
    · rw [List.mem_dedup] at hk1
      rcases List.mem_append.mp hk1 with hA | hB
      · exact Or.inl hA
      · rcases List.mem_map.mp hB with ⟨t, _, rfl⟩
        exact Or.inr (Or.inl (esMinuscula_pyLower t))
    · rw [List.mem_flatten] at hk2
      obtain ⟨l, hl, hkl⟩ := hk2
      rcases List.mem_map.mp hl with ⟨kw, _, rfl⟩
      cases hlook : lookupExpansion (pyLower kw) with
      | none => rw [hlook] at hkl; simp at hkl
      | some syns =>
        rw [hlook, Option.getD_some] at hkl
        unfold lookupExpansion at hlook
        obtain ⟨p, hfind, hp2⟩ := Option.map_eq_some'.mp hlook
        exact Or.inr (Or.inr ⟨p, List.mem_of_find?_eq_some hfind, hp2.symm ▸ hkl⟩)

set_option maxRecDepth 8000 in
/-- Witness for the amended C6 at the concrete question
`"softmax"` and its extracted keyword `"softmax"`. -/
theorem extraer_keywords_forma_witness :
    "softmax" ∈ keywords_filtradas "softmax" ∨ esMinuscula "softmax" ∨
      ∃ p ∈ TERMINOS_EXPANSION, "softmax" ∈ p.2 :=
  (extraer_keywords_forma "softmax").2 "softmax" (by decide)

end ChatPdfs
